import Mathlib

/-!
Shallow embedding of `src/tracker.py` (a personal weight-tracking batch job)
together with proofs about its date-shifting, goal-progression,
sheet-extraction and weekly-trend logic.

Modelling conventions:
* Calendar dates are modelled by their day number (an integer): the programs
  under study only ever shift dates by whole days, compare them, and group
  them into calendar weeks, all of which are functions of the day number.
  Day 0 stands for 1970-01-01 (a Thursday), so Sundays are exactly the days
  congruent to 3 modulo 7.
* Python floats are modelled as exact rationals (`ℚ`).
* `strftime` is modelled by an injective rendering of the day number to a
  string; none of the claims depend on the concrete `dd/mm/yy` text.
* A `pandas.DataFrame` of dated values is modelled as a list of
  (day number, value) pairs; a missing cell (`NaN`) is `Option.none`.
* Functions that can raise Python exceptions return `Except`.
-/

namespace Tracker

/-- Python runtime values that can reach `date_following`'s `date` parameter:
`None`, a `datetime` instance, a `datetime.date` instance (NOT a `datetime`
for `isinstance`), a string, or an integer. -/
inductive PyVal where
  | vnone : PyVal
  | dt : ℤ → PyVal
  | dateOnly : ℤ → PyVal
  | str : String → PyVal
  | int : ℤ → PyVal
deriving DecidableEq, Repr

/-- Stand-in for `strftime(date_format)`: renders the day number.  The claims
never inspect the concrete `dd/mm/yy` text, only whether a formatted string is
returned at all. -/
def formatDayNumber (d : ℤ) : String :=
  toString d

/-- Embedding of `date_following` (tracker.py lines 22-48).

The source first runs, for a non-`None` value that is not a `datetime`
instance, `date = datetime(date)` inside `try/except`.  Calling the
`datetime` constructor with one positional argument that is not an integer
year (and with no month/day) raises `TypeError` for every `PyVal` shape
above, so the coercion ALWAYS fails there, the exception is printed, and
`date` keeps its original value.  The source then replaces `None` by
`datetime.today()` (modelled by the extra `today` argument), computes
`date + timedelta(delta)` - which raises `TypeError` unless the value
supports date arithmetic (a `datetime` or `datetime.date`) - and formats the
result. -/
def date_following (date : PyVal) (today : ℤ) (delta : ℤ) : Except String String :=
  -- after the failed best-effort coercion `date` is unchanged
  match date with
  | .vnone => .ok (formatDayNumber (today + delta))
  | .dt d => .ok (formatDayNumber (d + delta))
  | .dateOnly d => .ok (formatDayNumber (d + delta))
  | .str _ => .error ("TypeError: unsupported operand for str + timedelta")
  | .int _ => .error ("TypeError: unsupported operand for int + timedelta")

/-! ## Progression generator -/

/-- Errors `get_progression` can raise.  The source raises
`NotImplementedError` for both configuration failures (the spec calls them
`ConfigurationError`); constructing the final `DataFrame` with a values list
whose length differs from the index length raises a pandas `ValueError`,
modelled by `lengthMismatch`. -/
inductive ProgError where
  | missingDateRange : ProgError
  | invalidDirection : ProgError
  | lengthMismatch : ProgError
deriving DecidableEq, Repr

/-- `pd.date_range(start_date, periods=n, freq="D")`: `n` consecutive day
numbers starting at the parsed start date.  The date-string parser is passed
in as a parameter (`parse`), standing for pandas' date parsing. -/
def date_range (parse : String → ℤ) (start_date : String) (n : ℕ) : List ℤ :=
  (List.range n).map (fun i => parse start_date + Int.ofNat i)

/-- The step function chosen in tracker.py lines 144-153.
Percentage mode multiplies the previous value by `1 + increment`
(direction positive) or `1 - increment` (negative); absolute mode adds
`increment` (positive) or `increment * -1` (negative). -/
def increment_func (pct : Bool) (direction : String) (increment : ℚ) : ℚ → ℚ :=
  if pct then
    let inc := if direction = "positive" then 1 + increment else 1 - increment
    fun x => inc * x
  else
    let inc := if direction = "negative" then increment * (-1) else increment
    fun x => inc + x

/-- The accumulation loop of tracker.py lines 156-159:
`progression = [start]; repeat n times: progression.append(f(progression[-1]))`.
`last` tracks `progression[-1]`. -/
def stepLoop (f : ℚ → ℚ) (prog : List ℚ) (last : ℚ) : ℕ → List ℚ
  | 0 => prog
  | n + 1 => stepLoop f (prog ++ [f last]) (f last) n

/-- The full progression list produced by the loop: the starting value
followed by `nInc` applications of the step function. -/
def progressionValues (f : ℚ → ℚ) (start_value : ℚ) (nInc : ℕ) : List ℚ :=
  stepLoop f [start_value] start_value nInc

/-- Embedding of `get_progression` (tracker.py lines 95-161).
Python truthiness of `n_days and start_date` is modelled exactly: a present
`n_days = 0` and a present `start_date = ""` are falsy.  The date-range
check precedes the direction check, as in the source.  The result pairs the
index with the generated values (the `goal_progression` DataFrame); pandas
raises when the two lengths differ. -/
def get_progression (parse : String → ℤ) (start_value increment : ℚ)
    (direction : String) (pct : Bool) (index : Option (List ℤ))
    (n_days : Option ℕ) (start_date : Option String) :
    Except ProgError (List ℤ × List ℚ) :=
  let idxRes : Except ProgError (List ℤ) :=
    match index with
    | some i => .ok i
    | none =>
      match n_days, start_date with
      | some n, some s =>
        if n ≠ 0 ∧ s ≠ "" then .ok (date_range parse s n)
        else .error .missingDateRange
      | _, _ => .error .missingDateRange
  match idxRes with
  | .error e => .error e
  | .ok idx =>
    if direction = "positive" ∨ direction = "negative" then
      let f := increment_func pct direction increment
      let progression := progressionValues f start_value (idx.length - 1)
      if progression.length = idx.length then .ok (idx, progression)
      else .error .lengthMismatch
    else .error .invalidDirection

/-! ## Sheet data extraction -/

/-- A raw "Weight" cell from the spreadsheet: per the external-interface
contract the column holds numeric-or-empty-string cells.  The "Date" cell of
each record is modelled by its parsed day number, since every claim concerns
rows whose date cell is well-formed. -/
inductive WeightCell where
  | blank : WeightCell
  | num : ℚ → WeightCell
deriving DecidableEq, Repr

/-- `df.mask(df == '')` followed by `astype("float64")` on the Weight column:
an empty-string cell becomes `NaN` (here `none`), a numeric cell keeps its
value. -/
def maskBlank : WeightCell → Option ℚ
  | .blank => none
  | .num q => some q

/-- `sort_values(by="Date")`: sort the frame ascending by the date index. -/
def sortByDate (df : List (ℤ × Option ℚ)) : List (ℤ × Option ℚ) :=
  List.mergeSort df (fun a b => decide (a.1 ≤ b.1))

/-- Embedding of `extract_sheet_data` (tracker.py lines 62-92).
Returns `none` (Python `return` with no value -> `None`) when there are no
records; otherwise masks empty strings to missing values, sorts ascending by
date with the date as lookup key, and keeps the tail slice
`iloc[-n_records_to_return:]`.  Note the Python slice `iloc[-0:]` is
`iloc[0:]`, the WHOLE frame, so when `min(row_count, limit) = 0` every row
is kept. -/
def extract_sheet_data (records : List (ℤ × WeightCell)) (limit : ℕ) :
    Option (List (ℤ × Option ℚ)) :=
  if records = [] then none
  else
    let df := records.map (fun r => (r.1, maskBlank r.2))
    let n_records_to_return := min records.length limit
    let sorted := sortByDate df
    if n_records_to_return = 0 then some sorted
    else some (sorted.drop (sorted.length - n_records_to_return))

/-! ## Weekly resample and message composition -/

/-- `pandas` weekly bucket (`resample('W')`, anchored on Sundays): maps a day
number to the index of the Mon-Sun calendar week containing it.  Day 0 is
1970-01-01, a Thursday, so Sundays are the days congruent to 3 mod 7. -/
def weekBucket (d : ℤ) : ℤ :=
  (d + 3).fdiv 7

/-- Mean of a list of present values; `none` (`NaN`) when the list is empty. -/
def meanList (l : List ℚ) : Option ℚ :=
  if l.length = 0 then none else some (l.sum / (l.length : ℚ))

/-- Mean of the non-missing weights falling in week bucket `w`
(`resample` skips `NaN` cells when computing a bucket mean). -/
def bucketMean (s : List (ℤ × Option ℚ)) (w : ℤ) : Option ℚ :=
  meanList ((s.filter (fun e => decide (weekBucket e.1 = w))).filterMap (fun e => e.2))

/-- The regular sequence of week buckets spanned by the series, from the
bucket of the earliest date to the bucket of the latest date inclusive
(`resample` emits a row for every bucket in the span, empty ones included). -/
def weekSpan (s : List (ℤ × Option ℚ)) : List ℤ :=
  match (s.map (fun e => weekBucket e.1)).min?, (s.map (fun e => weekBucket e.1)).max? with
  | some lo, some hi => (List.range (hi - lo + 1).toNat).map (fun i => lo + i)
  | _, _ => []

/-- `df.resample('W').mean()`: one (bucket, mean) row per calendar week in
the span of the series. -/
def resampleWeekly (s : List (ℤ × Option ℚ)) : List (ℤ × Option ℚ) :=
  (weekSpan s).map (fun w => (w, bucketMean s w))

/-- `.round(2)`: round to two decimal places. -/
def round2 (q : ℚ) : ℚ :=
  ((round (q * 100) : ℤ) : ℚ) / 100

/-- The value `(weekly_averages.Weight.iloc[-1] - weekly_averages.Weight.iloc[-2]).round(2)`
from tracker.py line 207; `none` when either of the last two bucket means is
`NaN` (missing) or fewer than two buckets exist. -/
def weeklyAverageChange (df : List (ℤ × Option ℚ)) : Option ℚ :=
  let means := (resampleWeekly df).map (fun e => e.2)
  match means.getLast?, means.dropLast.getLast? with
  | some (some m1), some (some m0) => some (round2 (m1 - m0))
  | _, _ => none

/-- Float rendering of the change value in the message body. -/
def fmtChange : Option ℚ → String
  | some q => toString q
  | none => "nan"

/-- Embedding of the message composition in `main` (tracker.py lines 202-217):
the `df is None` branch produces the generic motivational message with no
attachment; otherwise the weekly resample is taken and the body reports the
numeric change when at least two weekly buckets exist, or the fallback text
otherwise, in both cases attaching the chart.  `weekday` stands for
`datetime.today().strftime('%A')`.  The Bool records whether an image is
attached. -/
def composeMessage (weekday : String) (df : Option (List (ℤ × Option ℚ))) :
    String × Bool :=
  match df with
  | none =>
    ("Happy " ++ weekday ++ ". Get a streak going so you can see a trend.", false)
  | some d =>
    let weekly_averages := resampleWeekly d
    if 2 ≤ weekly_averages.length then
      ("Happy " ++ weekday ++ ". Your weekly average change is " ++
        fmtChange (weeklyAverageChange d), true)
    else
      ("Happy " ++ weekday ++ ". Not enough data points to get a weekly diff.", true)

/-- Python truthiness of the `n_days` argument (`None` and `0` are falsy). -/
def truthyNat : Option ℕ → Bool
  | none => false
  | some n => decide (n ≠ 0)

/-- Python truthiness of the `start_date` argument (`None` and `""` are falsy). -/
def truthyStr : Option String → Bool
  | none => false
  | some s => decide (s ≠ "")

/-- The condition under which `get_progression` resolves a date range:
an explicit index is present, or `n_days and start_date` is truthy. -/
def rangeResolvable (index : Option (List ℤ)) (n_days : Option ℕ)
    (start_date : Option String) : Bool :=
  index.isSome || (truthyNat n_days && truthyStr start_date)

/-! ### Progression lemmas -/

theorem stepLoop_eq (f : ℚ → ℚ) (n : ℕ) :
    ∀ (prog : List ℚ) (last : ℚ),
      stepLoop f prog last n = prog ++ (List.range n).map (fun i => f^[i + 1] last) := by
  induction n with
  | zero => intro prog last; simp [stepLoop]
  | succ m ih =>
    intro prog last
    rw [stepLoop, ih]
    rw [List.range_succ_eq_map, List.map_cons, List.map_map, List.append_assoc,
      List.singleton_append]
    rfl

theorem progressionValues_eq (f : ℚ → ℚ) (s : ℚ) (n : ℕ) :
    progressionValues f s n = (List.range (n + 1)).map (fun i => f^[i] s) := by
  rw [progressionValues, stepLoop_eq]
  rw [List.range_succ_eq_map, List.map_cons, List.map_map, List.singleton_append]
  rfl

theorem progressionValues_length (f : ℚ → ℚ) (s : ℚ) (n : ℕ) :
    (progressionValues f s n).length = n + 1 := by
  rw [progressionValues_eq]; simp

theorem progressionValues_head (f : ℚ → ℚ) (s : ℚ) (n : ℕ) :
    (progressionValues f s n).head? = some s := by
  rw [progressionValues_eq, List.range_succ_eq_map]
  simp

theorem progressionValues_getElem (f : ℚ → ℚ) (s : ℚ) (n i : ℕ) (h : i < n + 1) :
    (progressionValues f s n)[i]! = f^[i] s := by
  rw [progressionValues_eq]
  have hlen : i < ((List.range (n + 1)).map (fun i => f^[i] s)).length := by simp [h]
  rw [getElem!_pos ((List.range (n + 1)).map (fun i => f^[i] s)) i hlen,
    List.getElem_map, List.getElem_range]

/-! ### Reduction lemmas for `get_progression` -/

theorem get_progression_index (parse : String → ℤ) (sv inc : ℚ) (dir : String)
    (pct : Bool) (idx : List ℤ) (nd : Option ℕ) (sd : Option String)
    (hdir : dir = "positive" ∨ dir = "negative") (hne : idx ≠ []) :
    get_progression parse sv inc dir pct (some idx) nd sd
      = .ok (idx, progressionValues (increment_func pct dir inc) sv (idx.length - 1)) := by
  have hlen : (progressionValues (increment_func pct dir inc) sv (idx.length - 1)).length
      = idx.length := by
    rw [progressionValues_length]
    have h0 : idx.length ≠ 0 := by simpa [List.length_eq_zero] using hne
    omega
  simp only [get_progression]
  rw [if_pos hdir, if_pos hlen]

theorem date_range_length (parse : String → ℤ) (s : String) (n : ℕ) :
    (date_range parse s n).length = n := by
  rw [date_range, List.length_map, List.length_range]

theorem get_progression_range (parse : String → ℤ) (sv inc : ℚ) (dir : String)
    (pct : Bool) (n : ℕ) (s : String) (hn : n ≠ 0) (hs : s ≠ "")
    (hdir : dir = "positive" ∨ dir = "negative") :
    get_progression parse sv inc dir pct none (some n) (some s)
      = .ok (date_range parse s n,
          progressionValues (increment_func pct dir inc) sv (n - 1)) := by
  have hdr : (date_range parse s n).length = n := date_range_length parse s n
  have hlen : (progressionValues (increment_func pct dir inc) sv
      ((date_range parse s n).length - 1)).length = (date_range parse s n).length := by
    rw [progressionValues_length, hdr]
    omega
  simp only [get_progression]
  rw [if_pos ⟨hn, hs⟩]
  simp only
  rw [if_pos hdir, if_pos hlen, hdr]

theorem get_progression_missing (parse : String → ℤ) (sv inc : ℚ) (dir : String)
    (pct : Bool) (nd : Option ℕ) (sd : Option String)
    (h : ∀ n s, nd = some n → sd = some s → n = 0 ∨ s = "") :
    get_progression parse sv inc dir pct none nd sd = .error .missingDateRange := by
  cases nd with
  | none => cases sd <;> rfl
  | some n =>
    cases sd with
    | none => rfl
    | some s =>
      have hns := h n s rfl rfl
      simp only [get_progression]
      rw [if_neg (by tauto)]

theorem get_progression_invalid_dir (parse : String → ℤ) (sv inc : ℚ) (dir : String)
    (pct : Bool) (idx : List ℤ) (nd : Option ℕ) (sd : Option String)
    (hdir : ¬(dir = "positive" ∨ dir = "negative")) :
    get_progression parse sv inc dir pct (some idx) nd sd = .error .invalidDirection := by
  simp only [get_progression]
  rw [if_neg hdir]

theorem get_progression_invalid_dir_range (parse : String → ℤ) (sv inc : ℚ)
    (dir : String) (pct : Bool) (n : ℕ) (s : String) (hn : n ≠ 0) (hs : s ≠ "")
    (hdir : ¬(dir = "positive" ∨ dir = "negative")) :
    get_progression parse sv inc dir pct none (some n) (some s)
      = .error .invalidDirection := by
  simp only [get_progression]
  rw [if_pos ⟨hn, hs⟩]
  simp only
  rw [if_neg hdir]

theorem get_progression_ok_inv (parse : String → ℤ) (sv inc : ℚ) (dir : String)
    (pct : Bool) (index : Option (List ℤ)) (nd : Option ℕ) (sd : Option String)
    (idx : List ℤ) (vals : List ℚ)
    (h : get_progression parse sv inc dir pct index nd sd = .ok (idx, vals)) :
    vals = progressionValues (increment_func pct dir inc) sv (idx.length - 1) := by
  simp only [get_progression] at h
  repeat' split at h
  all_goals (try exact Except.noConfusion h)
  all_goals rw [Except.ok.injEq, Prod.mk.injEq] at h
  all_goals obtain ⟨h1, h2⟩ := h
  all_goals subst h1
  all_goals exact h2.symm

theorem progressionValues_succ (f : ℚ → ℚ) (s : ℚ) (n i : ℕ) (h : i + 1 < n + 1) :
    (progressionValues f s n)[i + 1]! = f ((progressionValues f s n)[i]!) := by
  rw [progressionValues_getElem f s n (i + 1) h,
    progressionValues_getElem f s n i (by omega)]
  exact Function.iterate_succ_apply' f i s

/-! ### Extraction lemmas -/

theorem extract_sheet_data_pos (records : List (ℤ × WeightCell)) (limit : ℕ)
    (hne : records ≠ []) (h0 : min records.length limit ≠ 0) :
    extract_sheet_data records limit
      = some ((sortByDate (records.map (fun r => (r.1, maskBlank r.2)))).drop
          ((sortByDate (records.map (fun r => (r.1, maskBlank r.2)))).length
            - min records.length limit)) := by
  simp only [extract_sheet_data]
  rw [if_neg hne, if_neg h0]

theorem extract_sheet_data_zero (records : List (ℤ × WeightCell)) (limit : ℕ)
    (hne : records ≠ []) (h0 : min records.length limit = 0) :
    extract_sheet_data records limit
      = some (sortByDate (records.map (fun r => (r.1, maskBlank r.2)))) := by
  simp only [extract_sheet_data]
  rw [if_neg hne, if_pos h0]

theorem sortByDate_perm (df : List (ℤ × Option ℚ)) :
    List.Perm (sortByDate df) df :=
  List.mergeSort_perm df _

theorem sortByDate_pairwise (df : List (ℤ × Option ℚ)) :
    (sortByDate df).Pairwise (fun a b => a.1 ≤ b.1) := by
  have h : (sortByDate df).Pairwise (fun a b => decide (a.1 ≤ b.1) = true) := by
    apply List.sorted_mergeSort
    · intro a b c hab hbc
      rw [decide_eq_true_eq] at *
      exact le_trans hab hbc
    · intro a b
      rcases le_total a.1 b.1 with h | h <;> simp [h]
  exact h.imp (fun hab => of_decide_eq_true hab)

/-! ## Claim theorems -/

/-- C4 counterexample: with limit = 0 on one well-formed row the slice
`iloc[-0:]` is `iloc[0:]` and keeps every row, so the result has 1 row
whereas the claim demands min(row_count, limit) = min(1, 0) = 0 rows. -/
theorem C4_most_recent_tail_slice_counterexample :
    (extract_sheet_data [((0 : ℤ), WeightCell.num 80)] 0).map List.length = some 1 ∧
    min 1 0 = 0 := by
  constructor
  · rw [extract_sheet_data_zero [((0 : ℤ), WeightCell.num 80)] 0 (by decide) rfl]
    rw [show List.map (fun r : ℤ × WeightCell => (r.1, maskBlank r.2))
        [((0 : ℤ), WeightCell.num 80)] = [((0 : ℤ), some (80 : ℚ))] from rfl]
    rw [show sortByDate [((0 : ℤ), some (80 : ℚ))] = [((0 : ℤ), some (80 : ℚ))] from
      List.mergeSort_of_sorted (by decide)]
    rfl
  · rfl

/-- C4 (amended to limit ≥ 1): extract_sheet_data on non-empty well-formed
rows (distinct dates) sorts ascending by date with the date as key and
returns exactly min(row_count, limit) rows, namely the most recent ones:
every excluded cleaned row is older than every returned row. -/
theorem C4_most_recent_tail_slice (records : List (ℤ × WeightCell)) (limit : ℕ)
    (hne : records ≠ []) (hlim : 1 ≤ limit)
    (hnodup : (records.map (fun r => r.1)).Nodup) :
    ∃ out : List (ℤ × Option ℚ),
      extract_sheet_data records limit = some out ∧
      out.length = min records.length limit ∧
      out.Pairwise (fun a b => a.1 < b.1) ∧
      (∀ y ∈ out, ∃ r ∈ records, y = (r.1, maskBlank r.2)) ∧
      (∀ r ∈ records, (r.1, maskBlank r.2) ∉ out → ∀ y ∈ out, r.1 < y.1) := by
  have hlen_rec : records.length ≠ 0 := by simpa [List.length_eq_zero] using hne
  have hn0 : min records.length limit ≠ 0 := by omega
  have hperm : List.Perm (sortByDate (records.map (fun r => (r.1, maskBlank r.2))))
      (records.map (fun r => (r.1, maskBlank r.2))) := sortByDate_perm _
  have hlen_sorted : (sortByDate (records.map (fun r => (r.1, maskBlank r.2)))).length
      = records.length := by rw [hperm.length_eq, List.length_map]
  have hpw := sortByDate_pairwise (records.map (fun r => (r.1, maskBlank r.2)))
  have hfst : List.Perm ((sortByDate (records.map (fun r => (r.1, maskBlank r.2)))).map
      (fun y => y.1)) (records.map (fun r => r.1)) := by
    have h1 := hperm.map (fun y : ℤ × Option ℚ => y.1)
    rw [List.map_map] at h1
    exact h1
  have hnodup_sorted : ((sortByDate (records.map (fun r => (r.1, maskBlank r.2)))).map
      (fun y => y.1)).Nodup := hfst.nodup_iff.mpr hnodup
  have hn_le : min records.length limit
      ≤ (sortByDate (records.map (fun r => (r.1, maskBlank r.2)))).length := by
    rw [hlen_sorted]; omega
  refine ⟨(sortByDate (records.map (fun r => (r.1, maskBlank r.2)))).drop
      ((sortByDate (records.map (fun r => (r.1, maskBlank r.2)))).length
        - min records.length limit),
    extract_sheet_data_pos records limit hne hn0, ?_, ?_, ?_, ?_⟩
  · rw [List.length_drop]; omega
  · have hsub := List.drop_sublist
      ((sortByDate (records.map (fun r => (r.1, maskBlank r.2)))).length
        - min records.length limit)
      (sortByDate (records.map (fun r => (r.1, maskBlank r.2))))
    have hpw_out := hpw.sublist hsub
    have hnodup_out := hnodup_sorted.sublist (hsub.map (fun y => y.1))
    rw [List.Nodup, List.pairwise_map] at hnodup_out
    exact (hpw_out.and hnodup_out).imp (fun h => lt_of_le_of_ne h.1 h.2)
  · intro y hy
    have hys : y ∈ sortByDate (records.map (fun r => (r.1, maskBlank r.2))) :=
      (List.drop_sublist _ _).subset hy
    have hydf := hperm.mem_iff.mp hys
    obtain ⟨r, hr, hry⟩ := List.mem_map.mp hydf
    exact ⟨r, hr, hry.symm⟩
  · intro r hr hnot y hy
    have hclean : (r.1, maskBlank r.2) ∈ records.map (fun r => (r.1, maskBlank r.2)) :=
      List.mem_map_of_mem _ hr
    have hcs := hperm.mem_iff.mpr hclean
    have hsplit := (List.take_append_drop
      ((sortByDate (records.map (fun r => (r.1, maskBlank r.2)))).length
        - min records.length limit)
      (sortByDate (records.map (fun r => (r.1, maskBlank r.2))))).symm
    have hctake : (r.1, maskBlank r.2)
        ∈ (sortByDate (records.map (fun r => (r.1, maskBlank r.2)))).take
          ((sortByDate (records.map (fun r => (r.1, maskBlank r.2)))).length
            - min records.length limit) := by
      rcases List.mem_append.mp (hsplit ▸ hcs) with h | h
      · exact h
      · exact absurd h hnot
    have hpw2 : ((sortByDate (records.map (fun r => (r.1, maskBlank r.2)))).take
          ((sortByDate (records.map (fun r => (r.1, maskBlank r.2)))).length
            - min records.length limit)
        ++ (sortByDate (records.map (fun r => (r.1, maskBlank r.2)))).drop
          ((sortByDate (records.map (fun r => (r.1, maskBlank r.2)))).length
            - min records.length limit)).Pairwise (fun a b => a.1 ≤ b.1) := by
      rw [← hsplit]; exact hpw
    have hle : r.1 ≤ y.1 := (List.pairwise_append.mp hpw2).2.2 _ hctake _ hy
    have hnd := hnodup_sorted
    rw [hsplit, List.map_append, List.nodup_append] at hnd
    have hne2 : r.1 ≠ y.1 := by
      intro heq
      exact hnd.2.2 (List.mem_map_of_mem _ hctake) (heq ▸ List.mem_map_of_mem _ hy)
    exact lt_of_le_of_ne hle hne2

/-- C4 witness: 10 well-formed rows with limit 5 - the theorem applied at a
concrete input. -/
theorem C4_most_recent_tail_slice_witness :
    ∃ out : List (ℤ × Option ℚ),
      extract_sheet_data
          [((7 : ℤ), WeightCell.num 81), ((3 : ℤ), WeightCell.num 85),
            ((9 : ℤ), WeightCell.num 80), ((1 : ℤ), WeightCell.num 87),
            ((5 : ℤ), WeightCell.num 83), ((2 : ℤ), WeightCell.num 86),
            ((8 : ℤ), WeightCell.blank), ((4 : ℤ), WeightCell.num 84),
            ((10 : ℤ), WeightCell.num 79), ((6 : ℤ), WeightCell.num 82)] 5
        = some out ∧
      out.length = min 10 5 ∧
      out.Pairwise (fun a b => a.1 < b.1) ∧
      (∀ y ∈ out, ∃ r ∈ ([((7 : ℤ), WeightCell.num 81), ((3 : ℤ), WeightCell.num 85),
            ((9 : ℤ), WeightCell.num 80), ((1 : ℤ), WeightCell.num 87),
            ((5 : ℤ), WeightCell.num 83), ((2 : ℤ), WeightCell.num 86),
            ((8 : ℤ), WeightCell.blank), ((4 : ℤ), WeightCell.num 84),
            ((10 : ℤ), WeightCell.num 79), ((6 : ℤ), WeightCell.num 82)] :
          List (ℤ × WeightCell)), y = (r.1, maskBlank r.2)) ∧
      (∀ r ∈ ([((7 : ℤ), WeightCell.num 81), ((3 : ℤ), WeightCell.num 85),
            ((9 : ℤ), WeightCell.num 80), ((1 : ℤ), WeightCell.num 87),
            ((5 : ℤ), WeightCell.num 83), ((2 : ℤ), WeightCell.num 86),
            ((8 : ℤ), WeightCell.blank), ((4 : ℤ), WeightCell.num 84),
            ((10 : ℤ), WeightCell.num 79), ((6 : ℤ), WeightCell.num 82)] :
          List (ℤ × WeightCell)), (r.1, maskBlank r.2) ∉ out → ∀ y ∈ out, r.1 < y.1) :=
  C4_most_recent_tail_slice _ 5 (by decide) (by decide) (by decide)

/-- C1: for every start_value, increment, direction="negative",
is_percentage=True and every non-empty date range of n days, get_progression
returns a series of exactly n values with output[0] = start_value and
output[i] = output[i-1] * (1 - increment) for 1 ≤ i < n (first-order
compounding recurrence); in particular generate(100, 0.1, "negative",
percentage, 5-day range) yields [100, 90, 81, 72.9, 65.61]. -/
theorem C1_negative_percentage_compounds (parse : String → ℤ) (sv inc : ℚ)
    (idx : List ℤ) (nd : Option ℕ) (sd : Option String) (hidx : idx ≠ []) :
    (∃ vals : List ℚ,
      get_progression parse sv inc "negative" true (some idx) nd sd = .ok (idx, vals) ∧
      vals.length = idx.length ∧
      vals.head? = some sv ∧
      (∀ i : ℕ, i + 1 < vals.length → vals[i + 1]! = vals[i]! * (1 - inc))) ∧
    get_progression (fun _ => 19723) 100 (1 / 10) "negative" true none (some 5)
        (some ("2024-01-01"))
      = .ok ([19723, 19724, 19725, 19726, 19727],
          [100, 90, 81, 729 / 10, 6561 / 100]) := by
  have h0 : idx.length ≠ 0 := by simpa [List.length_eq_zero] using hidx
  have hf : increment_func true "negative" inc = fun x => (1 - inc) * x := rfl
  constructor
  · refine ⟨progressionValues (increment_func true "negative" inc) sv (idx.length - 1),
      get_progression_index parse sv inc "negative" true idx nd sd (Or.inr rfl) hidx,
      ?_, progressionValues_head _ _ _, ?_⟩
    · rw [progressionValues_length]; omega
    · intro i hi
      rw [progressionValues_length] at hi
      rw [progressionValues_succ _ _ _ _ hi, hf]
      exact mul_comm _ _
  · rw [get_progression_range (fun _ => 19723) 100 (1 / 10) "negative" true 5
      ("2024-01-01") (by decide) (by decide) (Or.inr rfl)]
    have h1 : date_range (fun _ => 19723) ("2024-01-01") 5
        = [19723, 19724, 19725, 19726, 19727] := by decide
    have h2 : progressionValues (increment_func true "negative" (1 / 10)) 100 (5 - 1)
        = [100, 90, 81, 729 / 10, 6561 / 100] := by
      have hf2 : increment_func true "negative" (1 / 10)
          = fun x => (1 - 1 / 10) * x := rfl
      rw [hf2]
      norm_num [progressionValues, stepLoop]
    rw [h1, h2]

/-- C1 witness: the general part of the theorem applied at the concrete
5-day percentage-mode call. -/
theorem C1_negative_percentage_compounds_witness :
    ∃ vals : List ℚ,
      get_progression (fun _ => 19723) 100 (1 / 10) "negative" true
          (some [19723, 19724, 19725, 19726, 19727]) none none
        = .ok ([19723, 19724, 19725, 19726, 19727], vals) ∧
      vals.length = 5 ∧
      vals.head? = some 100 ∧
      (∀ i : ℕ, i + 1 < vals.length → vals[i + 1]! = vals[i]! * (1 - 1 / 10)) :=
  (C1_negative_percentage_compounds (fun _ => 19723) 100 (1 / 10)
    [19723, 19724, 19725, 19726, 19727] none none (by decide)).1

/-- C8: for every valid start_value, increment ≥ 0, direction="positive",
is_percentage=False and non-empty n-day range, the generated series has the
cardinality of the date range, starts at start_value, satisfies
output[i] = output[i-1] + increment, and is therefore non-decreasing. -/
theorem C8_positive_absolute_progression (parse : String → ℤ) (sv inc : ℚ)
    (idx : List ℤ) (nd : Option ℕ) (sd : Option String)
    (hidx : idx ≠ []) (hinc : 0 ≤ inc) :
    ∃ vals : List ℚ,
      get_progression parse sv inc "positive" false (some idx) nd sd = .ok (idx, vals) ∧
      vals.length = idx.length ∧
      vals.head? = some sv ∧
      (∀ i : ℕ, i + 1 < vals.length → vals[i + 1]! = vals[i]! + inc) ∧
      (∀ i : ℕ, i + 1 < vals.length → vals[i]! ≤ vals[i + 1]!) := by
  have h0 : idx.length ≠ 0 := by simpa [List.length_eq_zero] using hidx
  have hf : increment_func false "positive" inc = fun x => inc + x := rfl
  have hrec : ∀ i : ℕ,
      i + 1 < (progressionValues (increment_func false "positive" inc) sv
        (idx.length - 1)).length →
      (progressionValues (increment_func false "positive" inc) sv (idx.length - 1))[i + 1]!
        = (progressionValues (increment_func false "positive" inc) sv
            (idx.length - 1))[i]! + inc := by
    intro i hi
    rw [progressionValues_length] at hi
    rw [progressionValues_succ _ _ _ _ hi, hf]
    exact add_comm _ _
  refine ⟨progressionValues (increment_func false "positive" inc) sv (idx.length - 1),
    get_progression_index parse sv inc "positive" false idx nd sd (Or.inl rfl) hidx,
    ?_, progressionValues_head _ _ _, hrec, ?_⟩
  · rw [progressionValues_length]; omega
  · intro i hi
    rw [hrec i hi]
    linarith

/-- C8 witness: the theorem applied at a concrete 3-day absolute-mode call. -/
theorem C8_positive_absolute_progression_witness :
    ∃ vals : List ℚ,
      get_progression (fun _ => 0) 80 1 "positive" false (some [0, 1, 2])
          none none
        = .ok ([0, 1, 2], vals) ∧
      vals.length = 3 ∧
      vals.head? = some 80 ∧
      (∀ i : ℕ, i + 1 < vals.length → vals[i + 1]! = vals[i]! + 1) ∧
      (∀ i : ℕ, i + 1 < vals.length → vals[i]! ≤ vals[i + 1]!) :=
  C8_positive_absolute_progression (fun _ => 0) 80 1 [0, 1, 2] none none
    (by decide) zero_le_one

/-- C9: when an explicit date index is supplied, it is used as-is; any
simultaneously supplied start_date and n_days (and even the date parser) are
ignored without raising, and with a valid direction and non-empty index the
call succeeds with exactly that index. -/
theorem C9_explicit_index_ignores_range_args (parse parse2 : String → ℤ)
    (sv inc : ℚ) (dir : String) (pct : Bool) (idx : List ℤ)
    (nd : Option ℕ) (sd : Option String) :
    get_progression parse sv inc dir pct (some idx) nd sd
      = get_progression parse2 sv inc dir pct (some idx) none none ∧
    ((dir = "positive" ∨ dir = "negative") → idx ≠ [] →
      ∃ vals, get_progression parse sv inc dir pct (some idx) nd sd
        = .ok (idx, vals)) := by
  constructor
  · rfl
  · intro hdir hne
    exact ⟨_, get_progression_index parse sv inc dir pct idx nd sd hdir hne⟩

/-- C9 witness: a call supplying both an explicit index and (n_days,
start_date) equals the call with the range arguments absent, and succeeds. -/
theorem C9_explicit_index_ignores_range_args_witness :
    get_progression (fun _ => 5) 80 1 "negative" false (some [0, 1]) (some 99)
        (some ("2020-02-02"))
      = get_progression (fun _ => 7) 80 1 "negative" false (some [0, 1]) none none ∧
    ∃ vals, get_progression (fun _ => 5) 80 1 "negative" false (some [0, 1])
        (some 99) (some ("2020-02-02")) = .ok ([0, 1], vals) :=
  ⟨(C9_explicit_index_ignores_range_args (fun _ => 5) (fun _ => 7) 80 1 "negative"
      false [0, 1] (some 99) (some ("2020-02-02"))).1,
    (C9_explicit_index_ignores_range_args (fun _ => 5) (fun _ => 7) 80 1 "negative"
      false [0, 1] (some 99) (some ("2020-02-02"))).2 (Or.inr rfl) (by decide)⟩

/-- C2 counterexample: a malformed (string) date supplied to the
date-shifting function does NOT result in a formatted date string being
returned - after the logged coercion failure the addition
`date + timedelta(delta)` raises a TypeError that propagates to the
caller. -/
theorem C2_lenient_coercion_counterexample :
    (date_following (PyVal.str ("31-02-2024")) 0 1).isOk = false := rfl

/-- C2 amended: for a non-absent input that is not a datetime instance the
attempted coercion `datetime(value)` always fails; the error is logged and
execution continues with the ORIGINAL value unchanged, so a formatted date
string is returned only when that value itself supports date arithmetic
(e.g. a `datetime.date`); for string or integer inputs the subsequent
addition raises a TypeError that propagates to the caller as a hard
error. -/
theorem C2_lenient_coercion_amended (s : String) (n : ℤ) (today delta d : ℤ) :
    (date_following (PyVal.str s) today delta).isOk = false ∧
    (date_following (PyVal.int n) today delta).isOk = false ∧
    date_following (PyVal.dateOnly d) today delta
      = .ok (formatDayNumber (d + delta)) ∧
    date_following (PyVal.dt d) today delta
      = .ok (formatDayNumber (d + delta)) :=
  ⟨rfl, rfl, rfl, rfl⟩

/-- C3: get_progression fails with a configuration error exactly when its
inputs are invalid: with a resolvable date range and a direction other than
"positive"/"negative" it raises the invalid-direction error; with an
unresolvable date range it raises the missing-date-range error; on valid
inputs (the date-range invariant requires a supplied explicit index to be
non-empty) no error is raised. -/
theorem C3_configuration_errors (parse : String → ℤ) (sv inc : ℚ) (dir : String)
    (pct : Bool) (index : Option (List ℤ)) (nd : Option ℕ) (sd : Option String)
    (hinv : ∀ i, index = some i → i ≠ []) :
    (rangeResolvable index nd sd = false →
      get_progression parse sv inc dir pct index nd sd = .error .missingDateRange) ∧
    (rangeResolvable index nd sd = true → ¬(dir = "positive" ∨ dir = "negative") →
      get_progression parse sv inc dir pct index nd sd = .error .invalidDirection) ∧
    (rangeResolvable index nd sd = true → (dir = "positive" ∨ dir = "negative") →
      ∃ out, get_progression parse sv inc dir pct index nd sd = .ok out) ∧
    ((∃ e, get_progression parse sv inc dir pct index nd sd = .error e) ↔
      (rangeResolvable index nd sd = false ∨
        ¬(dir = "positive" ∨ dir = "negative"))) := by
  have hmiss : rangeResolvable index nd sd = false →
      get_progression parse sv inc dir pct index nd sd = .error .missingDateRange := by
    intro h
    cases index with
    | some i => simp [rangeResolvable] at h
    | none =>
      apply get_progression_missing
      intro n s hn hs
      by_contra hc
      push_neg at hc
      obtain ⟨hn0, hs0⟩ := hc
      rw [hn, hs] at h
      simp [rangeResolvable, truthyNat, truthyStr, hn0, hs0] at h
  have hres : rangeResolvable index nd sd = true →
      (∃ i, index = some i) ∨
        (∃ n s, nd = some n ∧ sd = some s ∧ n ≠ 0 ∧ s ≠ "") := by
    intro h
    cases index with
    | some i => exact Or.inl ⟨i, rfl⟩
    | none =>
      cases nd with
      | none => simp [rangeResolvable, truthyNat] at h
      | some n =>
        cases sd with
        | none => simp [rangeResolvable, truthyNat, truthyStr] at h
        | some s =>
          simp only [rangeResolvable, truthyNat, truthyStr, Option.isSome_none,
            Bool.false_or, Bool.and_eq_true, decide_eq_true_eq] at h
          exact Or.inr ⟨n, s, rfl, rfl, h.1, h.2⟩
  have hbad : rangeResolvable index nd sd = true →
      ¬(dir = "positive" ∨ dir = "negative") →
      get_progression parse sv inc dir pct index nd sd = .error .invalidDirection := by
    intro h hdir
    rcases hres h with ⟨i, hi⟩ | ⟨n, s, hn, hs, hn0, hs0⟩
    · subst hi
      exact get_progression_invalid_dir parse sv inc dir pct i nd sd hdir
    · subst hn; subst hs
      cases index with
      | some i => exact get_progression_invalid_dir parse sv inc dir pct i (some n) (some s) hdir
      | none => exact get_progression_invalid_dir_range parse sv inc dir pct n s hn0 hs0 hdir
  have hok : rangeResolvable index nd sd = true →
      (dir = "positive" ∨ dir = "negative") →
      ∃ out, get_progression parse sv inc dir pct index nd sd = .ok out := by
    intro h hdir
    rcases hres h with ⟨i, hi⟩ | ⟨n, s, hn, hs, hn0, hs0⟩
    · subst hi
      exact ⟨_, get_progression_index parse sv inc dir pct i nd sd hdir (hinv i rfl)⟩
    · subst hn; subst hs
      cases index with
      | some i =>
        exact ⟨_, get_progression_index parse sv inc dir pct i (some n) (some s) hdir
          (hinv i rfl)⟩
      | none =>
        exact ⟨_, get_progression_range parse sv inc dir pct n s hn0 hs0 hdir⟩
  refine ⟨hmiss, hbad, hok, ?_, ?_⟩
  · rintro ⟨e, he⟩
    by_contra hc
    push_neg at hc
    obtain ⟨h1, h2⟩ := hc
    simp only [ne_eq, Bool.not_eq_false] at h1
    obtain ⟨out, hout⟩ := hok h1 h2
    rw [hout] at he
    exact Except.noConfusion he
  · rintro (h | h)
    · exact ⟨_, hmiss h⟩
    · cases hr : rangeResolvable index nd sd with
      | false => exact ⟨_, hmiss hr⟩
      | true => exact ⟨_, hbad hr h⟩

/-- C3 witness: the invalid-direction error at direction "sideways" with a
resolvable range, and the missing-date-range error with nothing supplied. -/
theorem C3_configuration_errors_witness :
    get_progression (fun _ => 0) 80 1 "sideways" false (some [0]) none none
      = .error .invalidDirection ∧
    get_progression (fun _ => 0) 80 1 "positive" false none none none
      = .error .missingDateRange :=
  ⟨(C3_configuration_errors (fun _ => 0) 80 1 "sideways" false (some [0]) none none
      (fun i hi => by injection hi with h; subst h; decide)).2.1 (by decide) (by decide),
    (C3_configuration_errors (fun _ => 0) 80 1 "positive" false none none none
      (fun i hi => Option.noConfusion hi)).1 (by decide)⟩

/-- C10: without an explicit index the range resolves only if both n_days
and start_date are truthy - n_days = 0, or an empty/absent start_date, raise
the missing-date-range error - and every successfully returned progression
is non-empty with first element start_value. -/
theorem C10_truthiness_and_nonempty (parse : String → ℤ) (sv inc : ℚ)
    (dir : String) (pct : Bool) :
    (∀ sd : Option String,
      get_progression parse sv inc dir pct none (some 0) sd
        = .error .missingDateRange) ∧
    (∀ nd : Option ℕ,
      get_progression parse sv inc dir pct none nd (some (""))
        = .error .missingDateRange) ∧
    (∀ nd : Option ℕ,
      get_progression parse sv inc dir pct none nd none
        = .error .missingDateRange) ∧
    (∀ (index : Option (List ℤ)) (nd : Option ℕ) (sd : Option String)
        (idx : List ℤ) (vals : List ℚ),
      get_progression parse sv inc dir pct index nd sd = .ok (idx, vals) →
      vals ≠ [] ∧ vals.head? = some sv) := by
  refine ⟨?_, ?_, ?_, ?_⟩
  · intro sd
    exact get_progression_missing parse sv inc dir pct (some 0) sd
      (fun n s hn _ => Or.inl (by injection hn with h; omega))
  · intro nd
    exact get_progression_missing parse sv inc dir pct nd (some (""))
      (fun n s _ hs => Or.inr (by injection hs with h; exact h.symm))
  · intro nd
    exact get_progression_missing parse sv inc dir pct nd none
      (fun n s _ hs => Option.noConfusion hs)
  · intro index nd sd idx vals h
    have hv := get_progression_ok_inv parse sv inc dir pct index nd sd idx vals h
    have hlen := progressionValues_length (increment_func pct dir inc) sv (idx.length - 1)
    rw [← hv] at hlen
    constructor
    · intro hnil
      rw [hnil] at hlen
      simp at hlen
    · rw [hv]
      exact progressionValues_head _ _ _

/-- C10 witness: the error cases at concrete falsy arguments and the
non-emptiness guarantee at a concrete successful call. -/
theorem C10_truthiness_and_nonempty_witness :
    (get_progression (fun _ => 0) 80 1 "positive" false none (some 0)
        (some ("2024-01-01")) = .error .missingDateRange) ∧
    (get_progression (fun _ => 0) 80 1 "positive" false none (some 3) (some (""))
        = .error .missingDateRange) ∧
    (progressionValues (increment_func false "positive" 1) 80 1 ≠ [] ∧
      (progressionValues (increment_func false "positive" 1) 80 1).head? = some 80) :=
  ⟨(C10_truthiness_and_nonempty (fun _ => 0) 80 1 "positive" false).1
      (some ("2024-01-01")),
    (C10_truthiness_and_nonempty (fun _ => 0) 80 1 "positive" false).2.1 (some 3),
    (C10_truthiness_and_nonempty (fun _ => 0) 80 1 "positive" false).2.2.2
      (some [5, 6]) none none [5, 6]
      (progressionValues (increment_func false "positive" 1) 80 1)
      (get_progression_index (fun _ => 0) 80 1 "positive" false [5, 6] none none
        (Or.inl rfl) (by decide))⟩

/-- C6: extract_sheet_data on an empty record list returns the explicit
no-data signal None, which is distinct from an empty series, and the caller
branches on it to the generic-message path with no attachment. -/
theorem C6_no_data_signal (limit : ℕ) (weekday : String) :
    extract_sheet_data [] limit = none ∧
    (∀ l : List (ℤ × Option ℚ),
      (none : Option (List (ℤ × Option ℚ))) ≠ some l) ∧
    composeMessage weekday (extract_sheet_data [] limit)
      = ("Happy " ++ weekday ++ ". Get a streak going so you can see a trend.",
          false) :=
  ⟨rfl, fun _ h => Option.noConfusion h, rfl⟩

/-- C7: extraction coerces the Date field to a date value and the Weight
field to a float, mapping empty-string cells to the missing marker - not to
zero and not to a parse failure; the three-row scenario (2024-01-01 = day
19723) yields 3 entries, sorted ascending, with the middle weight missing. -/
theorem C7_blank_cells_become_missing :
    (∀ q : ℚ, maskBlank (WeightCell.num q) = some q) ∧
    maskBlank WeightCell.blank = none ∧
    maskBlank WeightCell.blank ≠ some 0 ∧
    extract_sheet_data
        [((19723 : ℤ), WeightCell.num 80), ((19724 : ℤ), WeightCell.blank),
          ((19725 : ℤ), WeightCell.num (159 / 2))] 30
      = some [((19723 : ℤ), some 80), ((19724 : ℤ), none),
          ((19725 : ℤ), some ((159 : ℚ) / 2))] := by
  refine ⟨fun q => rfl, rfl, fun h => Option.noConfusion h, ?_⟩
  rw [extract_sheet_data_pos _ 30 (by decide) (by decide)]
  rw [show List.map (fun r : ℤ × WeightCell => (r.1, maskBlank r.2))
      [((19723 : ℤ), WeightCell.num 80), ((19724 : ℤ), WeightCell.blank),
        ((19725 : ℤ), WeightCell.num (159 / 2))]
      = [((19723 : ℤ), some (80 : ℚ)), ((19724 : ℤ), none),
          ((19725 : ℤ), some ((159 : ℚ) / 2))] from rfl]
  rw [show sortByDate [((19723 : ℤ), some (80 : ℚ)), ((19724 : ℤ), none),
        ((19725 : ℤ), some ((159 : ℚ) / 2))]
      = [((19723 : ℤ), some (80 : ℚ)), ((19724 : ℤ), none),
          ((19725 : ℤ), some ((159 : ℚ) / 2))] from
    List.mergeSort_of_sorted (by decide)]
  rfl

/-- C5: the weekly-change computation resamples the cleaned series to
weekly means; with fewer than 2 weekly buckets the composed message uses the
insufficient-data fallback text instead of a numeric value; otherwise the
reported value equals (latest weekly mean - previous weekly mean), rounded
to 2 decimal places. -/
theorem C5_weekly_change (weekday : String) (df : List (ℤ × Option ℚ)) :
    ((resampleWeekly df).length < 2 →
      composeMessage weekday (some df)
        = ("Happy " ++ weekday ++ ". Not enough data points to get a weekly diff.",
            true)) ∧
    (∀ m1 m0 : ℚ,
      ((resampleWeekly df).map (fun e => e.2)).getLast? = some (some m1) →
      (((resampleWeekly df).map (fun e => e.2)).dropLast).getLast? = some (some m0) →
      weeklyAverageChange df = some (round2 (m1 - m0)) ∧
      composeMessage weekday (some df)
        = ("Happy " ++ weekday ++ ". Your weekly average change is "
            ++ toString (round2 (m1 - m0)), true)) := by
  constructor
  · intro h
    simp only [composeMessage]
    rw [if_neg (by omega)]
  · intro m1 m0 h1 h0
    have hchange : weeklyAverageChange df = some (round2 (m1 - m0)) := by
      simp only [weeklyAverageChange]
      rw [h1, h0]
    have hlen2 : 2 ≤ (resampleWeekly df).length := by
      have hne : ((resampleWeekly df).map (fun e => e.2)).dropLast ≠ [] := by
        intro hnil
        rw [hnil] at h0
        exact Option.noConfusion h0
      have hpos := List.length_pos.mpr hne
      rw [List.length_dropLast, List.length_map] at hpos
      omega
    refine ⟨hchange, ?_⟩
    simp only [composeMessage]
    rw [if_pos hlen2, hchange]
    rfl

/-- C5 witness: the theorem applied at a concrete two-week series (buckets
with means 80 and 78, reported change round2(78 - 80)) and at a concrete
one-week series (fallback text). -/
theorem C5_weekly_change_witness :
    weeklyAverageChange [((4 : ℤ), some (80 : ℚ)), ((11 : ℤ), some (78 : ℚ))] = some (round2 ((78 : ℚ) - 80)) ∧
    composeMessage ("Monday") (some [((4 : ℤ), some (80 : ℚ)), ((11 : ℤ), some (78 : ℚ))])
      = ("Happy " ++ "Monday" ++ ". Your weekly average change is "
          ++ toString (round2 ((78 : ℚ) - 80)), true) ∧
    composeMessage ("Monday") (some [((4 : ℤ), some (80 : ℚ))])
      = ("Happy " ++ "Monday" ++ ". Not enough data points to get a weekly diff.",
          true) := by
  have hspan : weekSpan [((4 : ℤ), some (80 : ℚ)), ((11 : ℤ), some (78 : ℚ))] = [1, 2] := by decide
  have hres : resampleWeekly [((4 : ℤ), some (80 : ℚ)), ((11 : ℤ), some (78 : ℚ))] = [(1, bucketMean [((4 : ℤ), some (80 : ℚ)), ((11 : ℤ), some (78 : ℚ))] 1), (2, bucketMean [((4 : ℤ), some (80 : ℚ)), ((11 : ℤ), some (78 : ℚ))] 2)] := by
    rw [resampleWeekly, hspan]
    rfl
  have hb1 : bucketMean [((4 : ℤ), some (80 : ℚ)), ((11 : ℤ), some (78 : ℚ))] 1 = some 80 := by
    rw [bucketMean, show (([((4 : ℤ), some (80 : ℚ)), ((11 : ℤ), some (78 : ℚ))].filter
        (fun e => decide (weekBucket e.1 = 1))).filterMap (fun e => e.2)) = [(80 : ℚ)]
      from by decide, meanList]
    simp
  have hb2 : bucketMean [((4 : ℤ), some (80 : ℚ)), ((11 : ℤ), some (78 : ℚ))] 2 = some 78 := by
    rw [bucketMean, show (([((4 : ℤ), some (80 : ℚ)), ((11 : ℤ), some (78 : ℚ))].filter
        (fun e => decide (weekBucket e.1 = 2))).filterMap (fun e => e.2)) = [(78 : ℚ)]
      from by decide, meanList]
    simp
  have h1 : ((resampleWeekly [((4 : ℤ), some (80 : ℚ)), ((11 : ℤ), some (78 : ℚ))]).map (fun e => e.2)).getLast? = some (some (78 : ℚ)) := by
    rw [hres]
    rw [show (([((1 : ℤ), bucketMean [((4 : ℤ), some (80 : ℚ)), ((11 : ℤ), some (78 : ℚ))] 1), ((2 : ℤ), bucketMean [((4 : ℤ), some (80 : ℚ)), ((11 : ℤ), some (78 : ℚ))] 2)].map
        (fun e => e.2)).getLast?) = some (bucketMean [((4 : ℤ), some (80 : ℚ)), ((11 : ℤ), some (78 : ℚ))] 2) from rfl]
    rw [hb2]
  have h0 : (((resampleWeekly [((4 : ℤ), some (80 : ℚ)), ((11 : ℤ), some (78 : ℚ))]).map (fun e => e.2)).dropLast).getLast?
      = some (some (80 : ℚ)) := by
    rw [hres]
    rw [show ((([((1 : ℤ), bucketMean [((4 : ℤ), some (80 : ℚ)), ((11 : ℤ), some (78 : ℚ))] 1), ((2 : ℤ), bucketMean [((4 : ℤ), some (80 : ℚ)), ((11 : ℤ), some (78 : ℚ))] 2)].map
        (fun e => e.2)).dropLast).getLast?) = some (bucketMean [((4 : ℤ), some (80 : ℚ)), ((11 : ℤ), some (78 : ℚ))] 1) from rfl]
    rw [hb1]
  obtain ⟨hc, hm⟩ := (C5_weekly_change ("Monday") [((4 : ℤ), some (80 : ℚ)), ((11 : ℤ), some (78 : ℚ))]).2 78 80 h1 h0
  exact ⟨hc, hm, (C5_weekly_change ("Monday") [((4 : ℤ), some (80 : ℚ))]).1 (by decide)⟩

/-- C6 witness: the theorem applied at limit 30 and a concrete weekday,
with the distinctness conjunct instantiated at the empty series. -/
theorem C6_no_data_signal_witness :
    extract_sheet_data [] 30 = none ∧
    (none : Option (List (ℤ × Option ℚ))) ≠ some [] ∧
    composeMessage ("Monday") (extract_sheet_data [] 30)
      = ("Happy " ++ "Monday" ++ ". Get a streak going so you can see a trend.",
          false) :=
  ⟨(C6_no_data_signal 30 ("Monday")).1,
    (C6_no_data_signal 30 ("Monday")).2.1 [],
    (C6_no_data_signal 30 ("Monday")).2.2⟩

/-- C7 witness: the cell-cleaning conjuncts of the theorem instantiated at a
concrete numeric cell. -/
theorem C7_blank_cells_become_missing_witness :
    maskBlank (WeightCell.num 81) = some 81 ∧
    maskBlank WeightCell.blank = none :=
  ⟨C7_blank_cells_become_missing.1 81, C7_blank_cells_become_missing.2.1⟩

end Tracker
